import Mathlib

/-!
Shallow embedding of the core logic of the NBA shooting dashboard
(src/app.py): season-identifier construction, season autodetection,
retry with linear backoff, the per-game stats derivation of
load_main_stats, and the per-player zone aggregation of
get_zones_for_player together with the Free-Throw row appended by the
zone-breakdown display code.

Conventions of the embedding:
- pandas / numpy cell values that may be NaN are modelled as Option ℚ,
  with none standing for NaN (undefined);
- a function that can raise a Python exception returns an Option, with
  none standing for the raised exception;
- Python str values are Lean String, and str(int) is embedded by an
  explicit decimal-digit function so that it is kernel-computable.
-/

namespace NBAApp

/-- Decimal digit character, 0 ↦ '0', ..., 9 ↦ '9'. -/
def digitChar (d : Nat) : Char := Char.ofNat (48 + d)

/-- Fuel-driven accumulator producing the decimal digits of a natural number,
most significant first, in front of the accumulator. -/
def natDecAux : Nat → Nat → List Char → List Char
  | 0, _, acc => acc
  | f + 1, n, acc =>
      if n < 10 then digitChar n :: acc
      else natDecAux f (n / 10) (digitChar (n % 10) :: acc)

/-- Decimal digit list of a natural number. -/
def natDecL (n : Nat) : List Char := natDecAux (n + 1) n []

/-- Embedding of Python str(...) applied to a nonnegative integer. -/
def natDec (n : Nat) : String := String.mk (natDecL n)

/-- Embedding of Python str(...) applied to an int. -/
def pyStrInt (i : Int) : String :=
  if i < 0 then String.mk ('-' :: natDecL i.natAbs) else natDec i.toNat

/-- Embedding of the Python slice s[-2:]: the last two characters of a string
(the whole string when it is shorter than two characters). -/
def lastTwo (s : String) : String := String.mk (s.data.drop (s.data.length - 2))

/-- season_str_from_year from src/app.py:
returns f-string start_year, hyphen, str(start_year + 1)[-2:]. -/
def season_str_from_year (start_year : Int) : String :=
  pyStrInt start_year ++ "-" ++ lastTwo (pyStrInt (start_year + 1))

/-- Formalisation of the spec wording: the two-digit zero-padded decimal
rendering of a number below 100 (used to state what the second season
component should be). -/
def twoDigitPad (k : Nat) : String := String.mk [digitChar (k / 10), digitChar (k % 10)]

/-- Calendar date reduced to the fields src/app.py reads from dt.date.today(). -/
structure SimpleDate where
  year : Int
  month : Nat
deriving DecidableEq

/-- Season start year chosen from a date, as in candidate_seasons_latest_first:
today.year if today.month >= 10 else today.year - 1. -/
def startYearOf (d : SimpleDate) : Int := if 10 ≤ d.month then d.year else d.year - 1

/-- candidate_seasons_latest_first from src/app.py: the n_back candidate season
strings, most recent first. -/
def candidate_seasons_latest_first (d : SimpleDate) (n_back : Nat) : List String :=
  (List.range n_back).map (fun i => season_str_from_year (startYearOf d - (i : Int)))

/-- DEFAULT_FALLBACK_SEASON from src/app.py. -/
def DEFAULT_FALLBACK_SEASON : String := "2025-26"

/-- Result of one probe of the upstream source for a candidate season:
Except.error models a raised exception (or a None frame), Except.ok n a
returned frame with n rows. -/
def SeasonProbe : Type := String → Except Unit Nat

/-- Loop body of safe_detect_latest_season: walk the candidate list, return the
first season whose probe returns a frame with more than zero rows, treating a
raised exception like an empty frame; fall back when the list is exhausted. -/
def safeDetectAux (probe : SeasonProbe) : List String → String
  | [] => DEFAULT_FALLBACK_SEASON
  | s :: rest =>
      match probe s with
      | Except.ok n => if 0 < n then s else safeDetectAux probe rest
      | Except.error _ => safeDetectAux probe rest

/-- safe_detect_latest_season from src/app.py, with the ambient date and the
network probe made explicit parameters. -/
def safe_detect_latest_season (d : SimpleDate) (probe : SeasonProbe) : String :=
  safeDetectAux probe (candidate_seasons_latest_first d 8)

/-- with_retry from src/app.py. The operation is modelled as a function from
the attempt index (0-based) to that attempt's outcome. The result pairs the
final outcome with the list of sleep durations performed between (and, when
every attempt fails, after) attempts; Except.error models the final raise,
whose payload is the last error (none only in the degenerate tries = 0 case,
where Python raises None). -/
def withRetryAux {E A : Type} (fn : Nat → Except E A) (base_sleep : ℚ) :
    Nat → Nat → Option E → Except (Option E) A × List ℚ
  | 0, _, last_err => (Except.error last_err, [])
  | t + 1, i, _ =>
      match fn i with
      | Except.ok a => (Except.ok a, [])
      | Except.error e =>
          let r := withRetryAux fn base_sleep t (i + 1) (some e)
          (r.1, base_sleep * ((i : ℚ) + 1) :: r.2)

/-- with_retry from src/app.py (entry point). -/
def with_retry {E A : Type} (fn : Nat → Except E A) (tries : Nat) (base_sleep : ℚ) :
    Except (Option E) A × List ℚ :=
  withRetryAux fn base_sleep tries 0 none

/-- One raw row of the LeagueDashPlayerStats frame after the pd.to_numeric
coercion in load_main_stats: every statistical field is a number or NaN. -/
structure RawPlayerRow where
  GP : Option ℚ
  MIN : Option ℚ
  FGM : Option ℚ
  FGA : Option ℚ
  FG3M : Option ℚ
  FG3A : Option ℚ
  FTM : Option ℚ
  FTA : Option ℚ
  PTS : Option ℚ
deriving DecidableEq

/-- One output row of load_main_stats: the raw totals plus the derived
percentages, with PTS and MIN converted to per-game rates. -/
structure PlayerSeasonRecord where
  GP : Option ℚ
  MIN : Option ℚ
  FGM : Option ℚ
  FGA : Option ℚ
  FG3M : Option ℚ
  FG3A : Option ℚ
  FTM : Option ℚ
  FTA : Option ℚ
  PTS : Option ℚ
  FG_PCT : Option ℚ
  FG3_PCT : Option ℚ
  FT_PCT : Option ℚ
deriving DecidableEq

/-- Embedding of np.where(den > 0, num / den, np.nan) on NaN-able cells:
NaN when the denominator is NaN or not positive, NaN when the numerator is
NaN, the quotient otherwise. -/
def guardedDiv (num den : Option ℚ) : Option ℚ :=
  match den with
  | none => none
  | some d => if 0 < d then num.map (fun n => n / d) else none

/-- Row transform of load_main_stats from src/app.py (lines 154-160): derive
the three shooting percentages from totals and convert PTS and MIN to
per-game values, each division guarded against a non-positive denominator. -/
def load_main_stats_row (r : RawPlayerRow) : PlayerSeasonRecord where
  GP := r.GP
  MIN := guardedDiv r.MIN r.GP
  FGM := r.FGM
  FGA := r.FGA
  FG3M := r.FG3M
  FG3A := r.FG3A
  FTM := r.FTM
  FTA := r.FTA
  PTS := guardedDiv r.PTS r.GP
  FG_PCT := guardedDiv r.FGM r.FGA
  FG3_PCT := guardedDiv r.FG3M r.FG3A
  FT_PCT := guardedDiv r.FTM r.FTA

/-- load_main_stats from src/app.py, restricted to its pure part: the fetched
frame is a list of raw rows and every row is transformed independently. -/
def load_main_stats (rows : List RawPlayerRow) : List PlayerSeasonRecord :=
  rows.map load_main_stats_row

/-- Embedding of Python str.endswith. -/
def strEndsWith (s suf : String) : Bool := List.isSuffixOf suf.data s.data

/-- Fuel-driven replace-all on character lists, scanning left to right and
skipping the matched pattern, as Python str.replace does. -/
def replaceAllAux (pat rep : List Char) : Nat → List Char → List Char
  | 0, s => s
  | _ + 1, [] => []
  | f + 1, c :: rest =>
      if List.isPrefixOf pat (c :: rest) then
        rep ++ replaceAllAux pat rep f ((c :: rest).drop pat.length)
      else c :: replaceAllAux pat rep f rest

/-- Embedding of Python str.replace(pat, rep) for a nonempty pattern. -/
def pyReplace (s pat rep : String) : String :=
  if pat.data.isEmpty then s
  else String.mk (replaceAllAux pat.data rep.data s.data.length s.data)

/-- One row of the wide shot-location frame: the PLAYER_NAME cell plus the
numeric cells, keyed by flattened column name (a key missing from the list
stands for a NaN cell). -/
structure ZoneRow where
  name : String
  cells : List (String × Option ℚ)
deriving DecidableEq

/-- The wide shot-location frame produced by load_shot_data: its flattened
column names and its rows. -/
structure WideZoneTable where
  cols : List String
  rows : List ZoneRow
deriving DecidableEq

/-- Cell access row[col], NaN when the column is absent. -/
def getCell (r : ZoneRow) (c : String) : Option ℚ := (r.cells.lookup c).getD none

/-- Shot-column filter of get_zones_for_player: the column name ends with
_FGM, _FGA or _FG_PCT. -/
def isShotCol (c : String) : Bool :=
  strEndsWith c "_FGM" || strEndsWith c "_FGA" || strEndsWith c "_FG_PCT"

/-- Zone label and metric parsed from a shot column name, trying the suffixes
in the order of src/app.py (lines 215-223); the label is the column name with
every occurrence of the matched suffix removed, as str.replace does. -/
def zoneMetricOf (c : String) : String × String :=
  if strEndsWith c "_FG_PCT" then (pyReplace c "_FG_PCT" "", "FG_PCT")
  else if strEndsWith c "_FGM" then (pyReplace c "_FGM" "", "FGM")
  else (pyReplace c "_FGA" "", "FGA")

/-- Per-metric increment added to a zone accumulator: a NaN cell contributes
nothing, a raw percentage value is read but discarded. -/
def metricDelta (metric : String) (v : Option ℚ) : ℚ × ℚ :=
  match v with
  | none => (0, 0)
  | some x => if metric = "FGM" then (x, 0) else if metric = "FGA" then (0, x) else (0, 0)

/-- Insertion-ordered accumulation into the zone_records dict: an existing
zone entry is incremented in place, a new zone is appended at the back with
the initial FGM = 0, FGA = 0 already incremented. -/
def bump : List (String × ℚ × ℚ) → String → ℚ × ℚ → List (String × ℚ × ℚ)
  | [], z, d => [(z, d.1, d.2)]
  | (z0, m, a) :: rest, z, d =>
      if z0 = z then (z0, m + d.1, a + d.2) :: rest
      else (z0, m, a) :: bump rest z d

/-- Loop body of the zone_records accumulation of get_zones_for_player. -/
def stepZone (row : ZoneRow) (acc : List (String × ℚ × ℚ)) (c : String) :
    List (String × ℚ × ℚ) :=
  bump acc (zoneMetricOf c).1 (metricDelta (zoneMetricOf c).2 (getCell row c))

/-- One output record of get_zones_for_player. -/
structure ZoneRec where
  zone : String
  FGM : ℚ
  FGA : ℚ
  FG_PCT : Option ℚ
  PTS : ℚ
  PTS_per_shot : Option ℚ
  shotShare : Option ℚ
deriving DecidableEq

/-- Final per-zone record built from an accumulated (zone, FGM, FGA) triple
and the total attempts over the retained zones: percentage recomputed from
makes over attempts with the zero guard, points from the 3-or-2 value chosen
by whether the label contains the digit 3, points per shot and shot share
with their zero guards. -/
def mkZoneRec (total_fga : ℚ) (z : String × ℚ × ℚ) : ZoneRec where
  zone := z.1
  FGM := z.2.1
  FGA := z.2.2
  FG_PCT := if 0 < z.2.2 then some (z.2.1 / z.2.2) else none
  PTS := z.2.1 * (if z.1.data.any (fun ch => ch == '3') then 3 else 2)
  PTS_per_shot :=
    if 0 < z.2.2 then some (z.2.1 * (if z.1.data.any (fun ch => ch == '3') then 3 else 2) / z.2.2)
    else none
  shotShare := if 0 < total_fga then some (z.2.2 / total_fga) else none

/-- Body of get_zones_for_player once a row has been matched: accumulate the
zone records over the shot columns, drop Backcourt, and build the final
records; none models the KeyError raised on zp when the matched row
contributes no zone records at all. -/
def get_zones_core (row : ZoneRow) (cols : List String) : Option (List ZoneRec) :=
  if (cols.filter isShotCol).isEmpty then none
  else
    some ((((cols.filter isShotCol).foldl (stepZone row) []).filter
        (fun z => !(z.1 == "Backcourt"))).map
      (mkZoneRec (((((cols.filter isShotCol).foldl (stepZone row) []).filter
        (fun z => !(z.1 == "Backcourt"))).map (fun z => z.2.2)).sum)))

/-- get_zones_for_player from src/app.py. The outer Option models raising:
none is a raised exception, some a normal return. -/
def get_zones_for_player (player_name : String) (shots_all : WideZoneTable) :
    Option (List ZoneRec) :=
  if shots_all.cols.contains "PLAYER_NAME" = false then some []
  else
    match shots_all.rows.find? (fun r => r.name == player_name) with
    | none => some []
    | some row => get_zones_core row shots_all.cols

/-- One row of the zone-breakdown display table assembled in src/app.py
(lines 337-371), with the blanked cells as NaN. -/
structure DisplayRow where
  zone : String
  FGM : Option ℚ
  FGA : Option ℚ
  PTS_per_shot : Option ℚ
  FG_PCT : Option ℚ
  PTS : Option ℚ
  shotShare : Option ℚ
  FTM : Option ℚ
  FTA : Option ℚ
  FT_PCT : Option ℚ
deriving DecidableEq

/-- Zone-label prettifying applied by the display code: underscores to
spaces, then the Non RA marker parenthesised. -/
def displayZoneName (z : String) : String :=
  pyReplace (pyReplace z "_" " ") "Non RA" "(Non-RA)"

/-- Display row built from one aggregated zone record; the free-throw cells
of a zone row are blank. -/
def displayOfZone (r : ZoneRec) : DisplayRow where
  zone := displayZoneName r.zone
  FGM := some r.FGM
  FGA := some r.FGA
  PTS_per_shot := r.PTS_per_shot
  FG_PCT := r.FG_PCT
  PTS := some r.PTS
  shotShare := r.shotShare
  FTM := none
  FTA := none
  FT_PCT := none

/-- ft_row from src/app.py (lines 353-364): the synthetic Free Throw record,
built from the player's row of the load_main_stats output; FTM and FTA are
the season totals divided by games played with the zero guard, the free-throw
percentage is carried over, and every field-goal-derived cell is blank. -/
def ft_row (player_row : PlayerSeasonRecord) : DisplayRow where
  zone := "Free Throw"
  FGM := none
  FGA := none
  PTS_per_shot := none
  FG_PCT := none
  PTS := none
  shotShare := none
  FTM := guardedDiv player_row.FTM player_row.GP
  FTA := guardedDiv player_row.FTA player_row.GP
  FT_PCT := player_row.FT_PCT

/-- The zone-breakdown table of src/app.py tab 1 (lines 332-371): the
aggregated zone rows with the Free Throw row appended. none models the two
paths on which no table is produced: the aggregation raising, and the empty
aggregation result (on which the page shows an error instead of a table). -/
def zone_breakdown_table (player_name : String) (shots_all : WideZoneTable)
    (player_row : PlayerSeasonRecord) : Option (List DisplayRow) :=
  match get_zones_for_player player_name shots_all with
  | none => none
  | some zs =>
      if zs.isEmpty then none
      else some (zs.map displayOfZone ++ [ft_row player_row])

/-- A probe outcome on which safe_detect_latest_season moves to the next
candidate: a raised exception or a frame with zero rows. -/
def probeAdvances (probe : SeasonProbe) (s : String) : Prop :=
  probe s = Except.error () ∨ probe s = Except.ok 0

/-- A probe outcome accepted by safe_detect_latest_season: a frame with a
positive row count. -/
def probeHits (probe : SeasonProbe) (s : String) : Prop :=
  ∃ n, probe s = Except.ok n ∧ 0 < n

/-- A column name carrying a raw per-zone percentage. -/
def pctColName (c : String) : Bool := strEndsWith c "_FG_PCT"

/-- Two rows that agree on the player name and on every cell outside the raw
percentage columns. -/
def RowsAgreeOffPct (r1 r2 : ZoneRow) : Prop :=
  r1.name = r2.name ∧ ∀ c : String, pctColName c = false → getCell r1 c = getCell r2 c

/-- Two wide tables that agree on everything except the values stored in the
raw percentage columns. -/
def TablesAgreeOffPct (t1 t2 : WideZoneTable) : Prop :=
  t1.cols = t2.cols ∧ List.Forall₂ RowsAgreeOffPct t1.rows t2.rows

/-- Concrete probe used to witness the season-detection theorem: only the
2024-25 season has data. -/
def probeW : SeasonProbe := fun s => if s = "2024-25" then Except.ok 450 else Except.error ()

/-- Concrete operation used to witness the retry theorem: attempts 0 and 1
fail, attempt 2 returns 7. -/
def fnW : Nat → Except Unit Nat := fun i => if i < 2 then Except.error () else Except.ok 7

/-- Concrete raw player row used to witness the stats-loader theorem. -/
def rawW : RawPlayerRow where
  GP := some 50
  MIN := some 1700
  FGM := some 400
  FGA := some 800
  FG3M := some 100
  FG3A := some 300
  FTM := some 150
  FTA := some 200
  PTS := some 1000

/-- Concrete raw player row of the free-throw example: FTM 150, FTA 200,
GP 50. -/
def rawFT : RawPlayerRow where
  GP := some 50
  MIN := some 1600
  FGM := some 300
  FGA := some 700
  FG3M := some 80
  FG3A := some 250
  FTM := some 150
  FTA := some 200
  PTS := some 900

/-- Table whose matched row has no zone metric column at all: the input on
which get_zones_for_player raises. -/
def noZoneColsTable : WideZoneTable where
  cols := ["PLAYER_NAME", "TEAM_ABBREVIATION"]
  rows := [⟨"Alice Auger", [("TEAM_ABBREVIATION", none)]⟩]

/-- Table without the PLAYER_NAME column. -/
def noNameColTable : WideZoneTable where
  cols := ["Mid_FGM"]
  rows := []

/-- Table holding a Backcourt zone next to an ordinary zone. -/
def backcourtTable : WideZoneTable where
  cols := ["PLAYER_NAME", "Backcourt_FGM", "Backcourt_FGA", "Mid_FGM", "Mid_FGA"]
  rows := [⟨"Cara Doe",
    [("Backcourt_FGM", some 1), ("Backcourt_FGA", some 2),
     ("Mid_FGM", some 3), ("Mid_FGA", some 6)]⟩]

/-- Table holding the three-point example zone: makes 4, attempts 9, label
containing the digit 3. -/
def threeZoneTable : WideZoneTable where
  cols := ["PLAYER_NAME", "Corner_3_FGM", "Corner_3_FGA"]
  rows := [⟨"Dee Em", [("Corner_3_FGM", some 4), ("Corner_3_FGA", some 9)]⟩]

/-- Table with two retained zones of 5 and 9 attempts, for the shot-share
witness. -/
def shareTable : WideZoneTable where
  cols := ["PLAYER_NAME", "Mid_FGM", "Mid_FGA", "Left_3_FGM", "Left_3_FGA"]
  rows := [⟨"Ed Fox",
    [("Mid_FGM", some 2), ("Mid_FGA", some 5),
     ("Left_3_FGM", some 4), ("Left_3_FGA", some 9)]⟩]

/-- The aggregation output on shareTable. -/
def shareOut : List ZoneRec :=
  [mkZoneRec 14 ("Mid", 2, 5), mkZoneRec 14 ("Left_3", 4, 9)]

/-- Table with one ordinary zone, for the free-throw-row witness. -/
def ftTable : WideZoneTable where
  cols := ["PLAYER_NAME", "Paint_FGM", "Paint_FGA"]
  rows := [⟨"Gil Han", [("Paint_FGM", some 5), ("Paint_FGA", some 10)]⟩]

/-- First of two tables differing only in a raw percentage value. -/
def pctTableA : WideZoneTable where
  cols := ["PLAYER_NAME", "Mid_FGM", "Mid_FGA", "Mid_FG_PCT"]
  rows := [⟨"Ida Jo", [("Mid_FGM", some 3), ("Mid_FGA", some 8), ("Mid_FG_PCT", some 0)]⟩]

/-- Second of two tables differing only in a raw percentage value. -/
def pctTableB : WideZoneTable where
  cols := ["PLAYER_NAME", "Mid_FGM", "Mid_FGA", "Mid_FG_PCT"]
  rows := [⟨"Ida Jo", [("Mid_FGM", some 3), ("Mid_FGA", some 8), ("Mid_FG_PCT", some (99 / 100))]⟩]

/-- Accumulator lemma: with enough fuel, the digits are produced in front of
the accumulator. -/
theorem natDecAux_append (f : Nat) : ∀ (n : Nat) (acc : List Char), n < f →
    natDecAux f n acc = natDecAux f n [] ++ acc := by
  induction f with
  | zero => intro n acc h; exact absurd h (Nat.not_lt_zero n)
  | succ f ih =>
      intro n acc h
      by_cases h10 : n < 10
      · simp [natDecAux, h10]
      · have hlt : n / 10 < n := Nat.div_lt_self (by omega) (by omega)
        have hx : n / 10 < f := by omega
        simp only [natDecAux, if_neg h10]
        rw [ih (n / 10) (digitChar (n % 10) :: acc) hx,
            ih (n / 10) [digitChar (n % 10)] hx]
        simp

/-- Fuel irrelevance: any amount of fuel above the number yields the same
digits. -/
theorem natDecAux_fuel (f : Nat) : ∀ (g n : Nat) (acc : List Char), n < f → n < g →
    natDecAux f n acc = natDecAux g n acc := by
  induction f with
  | zero => intro g n acc h _; exact absurd h (Nat.not_lt_zero n)
  | succ f ih =>
      intro g n acc hf hg
      cases g with
      | zero => exact absurd hg (Nat.not_lt_zero n)
      | succ g =>
          by_cases h10 : n < 10
          · simp [natDecAux, h10]
          · have hlt : n / 10 < n := Nat.div_lt_self (by omega) (by omega)
            simp only [natDecAux, if_neg h10]
            exact ih g (n / 10) _ (by omega) (by omega)

/-- Digits of a one-digit number. -/
theorem natDecL_small (n : Nat) (h : n < 10) : natDecL n = [digitChar n] := by
  unfold natDecL
  simp [natDecAux, h]

/-- Digits of a number of at least two digits: digits of the quotient followed
by the last digit. -/
theorem natDecL_step (n : Nat) (h : 10 ≤ n) :
    natDecL n = natDecL (n / 10) ++ [digitChar (n % 10)] := by
  have h10 : ¬ n < 10 := by omega
  have hlt : n / 10 < n := Nat.div_lt_self (by omega) (by omega)
  unfold natDecL
  simp only [natDecAux, if_neg h10]
  rw [natDecAux_fuel n (n / 10 + 1) (n / 10) [digitChar (n % 10)] (by omega) (by omega),
      natDecAux_append (n / 10 + 1) (n / 10) [digitChar (n % 10)] (by omega)]
  simp only [natDecAux]

/-- The last two decimal digits of a number of at least two digits. -/
theorem natDecL_last_two (n : Nat) (h : 10 ≤ n) :
    (natDecL n).drop ((natDecL n).length - 2) =
      [digitChar (n / 10 % 10), digitChar (n % 10)] := by
  rcases Nat.lt_or_ge (n / 10) 10 with h1 | h1
  · have h0 : n / 10 % 10 = n / 10 := Nat.mod_eq_of_lt h1
    rw [natDecL_step n h, natDecL_small (n / 10) h1, h0]
    rfl
  · rw [natDecL_step n h, natDecL_step (n / 10) h1, List.append_assoc]
    have hl : (natDecL (n / 10 / 10) ++
        ([digitChar (n / 10 % 10)] ++ [digitChar (n % 10)])).length - 2 =
        (natDecL (n / 10 / 10)).length := by
      simp [List.length_append]
    rw [hl]
    exact List.drop_left _ _

/-- C10 (amended): for every start year of at least 9 — so that the successor
year has at least two decimal digits — season_str_from_year returns the start
year, a hyphen, and the two-digit zero-padded successor year modulo 100. -/
theorem season_str_from_year_spec (Y : Int) (hY : 9 ≤ Y) :
    season_str_from_year Y = pyStrInt Y ++ "-" ++ twoDigitPad (((Y + 1) % 100).toNat) := by
  have hneg : ¬ (Y + 1 < 0) := by omega
  have hn : 10 ≤ (Y + 1).toNat := by omega
  have hd := natDecL_last_two ((Y + 1).toNat) hn
  have hk : ((Y + 1) % 100).toNat = (Y + 1).toNat % 100 := by omega
  have h1 : (Y + 1).toNat % 100 / 10 = (Y + 1).toNat / 10 % 10 := by omega
  have h2 : (Y + 1).toNat % 100 % 10 = (Y + 1).toNat % 10 := by omega
  unfold season_str_from_year pyStrInt lastTwo natDec twoDigitPad
  rw [if_neg hneg]
  congr 1
  rw [hk, h1, h2]
  show String.mk ((natDecL ((Y + 1).toNat)).drop ((natDecL ((Y + 1).toNat)).length - 2)) = _
  rw [hd]

/-- Witness: at the 2025 season start the identifier is 2025-26. -/
theorem season_str_from_year_spec_witness : season_str_from_year 2025 = "2025-26" := by
  have h := season_str_from_year_spec 2025 (by norm_num)
  rw [h]
  decide

/-- C10 counterexample: at start year 8 the code produces "8-9", where the
claimed two-digit zero-padding would require "8-09". -/
theorem season_str_from_year_pad_cex :
    season_str_from_year 8 = "8-9" ∧
    season_str_from_year 8 ≠ pyStrInt 8 ++ "-" ++ twoDigitPad (((8 + 1 : Int) % 100).toNat) := by
  constructor
  · decide
  · decide

/-- Exhausting a candidate list on which every probe advances falls back. -/
theorem safeDetectAux_fallback (probe : SeasonProbe) :
    ∀ l : List String, (∀ x ∈ l, probeAdvances probe x) →
      safeDetectAux probe l = DEFAULT_FALLBACK_SEASON := by
  intro l
  induction l with
  | nil => intro _; rfl
  | cons s rest ih =>
      intro h
      have hs := h s (by simp)
      have htail : ∀ x ∈ rest, probeAdvances probe x := fun x hx => h x (by simp [hx])
      rcases hs with hs | hs
      · simp only [safeDetectAux, hs]
        exact ih htail
      · simp only [safeDetectAux, hs]
        simpa using ih htail

/-- The first candidate whose probe returns a positive row count is returned,
when every earlier candidate advances. -/
theorem safeDetectAux_first (probe : SeasonProbe) :
    ∀ (l₁ : List String) (s : String) (l₂ : List String),
      (∀ x ∈ l₁, probeAdvances probe x) → probeHits probe s →
      safeDetectAux probe (l₁ ++ s :: l₂) = s := by
  intro l₁
  induction l₁ with
  | nil =>
      intro s l₂ _ hhit
      rcases hhit with ⟨n, hn, hpos⟩
      simp [safeDetectAux, hn, hpos]
  | cons x rest ih =>
      intro s l₂ h hhit
      have hx := h x (by simp)
      have htail : ∀ y ∈ rest, probeAdvances probe y := fun y hy => h y (by simp [hy])
      rcases hx with hx | hx
      · simp only [List.cons_append, safeDetectAux, hx]
        exact ih s l₂ htail hhit
      · simp only [List.cons_append, safeDetectAux, hx]
        simpa using ih s l₂ htail hhit

/-- The detection loop returns the fallback or a member of its candidate
list. -/
theorem safeDetectAux_mem (probe : SeasonProbe) :
    ∀ l : List String, safeDetectAux probe l = DEFAULT_FALLBACK_SEASON ∨
      safeDetectAux probe l ∈ l := by
  intro l
  induction l with
  | nil => left; rfl
  | cons s rest ih =>
      rcases hs : probe s with e | n
      · simp only [safeDetectAux, hs]
        rcases ih with ih | ih
        · left; exact ih
        · right; simp [ih]
      · by_cases hn : 0 < n
        · right
          simp [safeDetectAux, hs, hn]
        · simp only [safeDetectAux, hs, if_neg hn]
          rcases ih with ih | ih
          · left; exact ih
          · right; simp [ih]

/-- C7: safe_detect_latest_season, with the date and the probe made explicit,
is total and never propagates a probe failure: its candidate list is the 8
seasons counting down from the start year (the current year from October on,
else the previous year); it returns the first candidate whose probe yields a
positive row count, advancing over every probe that raises or returns an
empty frame; and it returns the configured fallback season when every
candidate's probe fails or returns empty. In every case the result is the
fallback or one of the candidates, so no error escapes. -/
theorem safe_detect_latest_season_spec (d : SimpleDate) (probe : SeasonProbe) :
    (safe_detect_latest_season d probe = DEFAULT_FALLBACK_SEASON ∨
      safe_detect_latest_season d probe ∈ candidate_seasons_latest_first d 8) ∧
    candidate_seasons_latest_first d 8 =
      (List.range 8).map
        (fun i => season_str_from_year
          ((if 10 ≤ d.month then d.year else d.year - 1) - (i : Int))) ∧
    (∀ (l₁ : List String) (s : String) (l₂ : List String),
      candidate_seasons_latest_first d 8 = l₁ ++ s :: l₂ →
      (∀ x ∈ l₁, probeAdvances probe x) → probeHits probe s →
      safe_detect_latest_season d probe = s) ∧
    ((∀ x ∈ candidate_seasons_latest_first d 8, probeAdvances probe x) →
      safe_detect_latest_season d probe = DEFAULT_FALLBACK_SEASON) := by
  refine ⟨safeDetectAux_mem probe _, rfl, ?_, ?_⟩
  · intro l₁ s l₂ hsplit h1 h2
    unfold safe_detect_latest_season
    rw [hsplit]
    exact safeDetectAux_first probe l₁ s l₂ h1 h2
  · intro h
    exact safeDetectAux_fallback probe _ h

/-- Witness: in March 2026 with only the 2024-25 probe returning data, the
second candidate is detected. -/
theorem safe_detect_latest_season_spec_witness :
    safe_detect_latest_season ⟨2026, 3⟩ probeW = "2024-25" := by
  refine (safe_detect_latest_season_spec ⟨2026, 3⟩ probeW).2.2.1 ["2025-26"] "2024-25"
      ["2023-24", "2022-23", "2021-22", "2020-21", "2019-20", "2018-19"] (by decide) ?_ ?_
  · intro x hx
    have hx1 : x = "2025-26" := by simpa using hx
    subst hx1
    left
    show (if ("2025-26" : String) = "2024-25" then Except.ok 450 else Except.error ()) =
      Except.error ()
    rw [if_neg (by decide)]
  · refine ⟨450, ?_, by norm_num⟩
    show (if ("2024-25" : String) = "2024-25" then Except.ok 450 else Except.error ()) =
      Except.ok 450
    rw [if_pos rfl]

/-- C6: with_retry with 3 attempts returns an attempt's value as soon as it
succeeds, sleeping base_sleep times the attempt number after each failure:
success on the first attempt sleeps never, success on the second sleeps once,
success on the third returns the third result after exactly the two delays
base_sleep × 1 and base_sleep × 2, and when all three attempts fail the last
error is raised; the result is an error if and only if all three attempts
failed. -/
theorem with_retry_spec {E A : Type} (fn : Nat → Except E A) (base_sleep : ℚ) :
    (∀ a, fn 0 = Except.ok a → with_retry fn 3 base_sleep = (Except.ok a, [])) ∧
    (∀ e0 a, fn 0 = Except.error e0 → fn 1 = Except.ok a →
      with_retry fn 3 base_sleep = (Except.ok a, [base_sleep * 1])) ∧
    (∀ e0 e1 a, fn 0 = Except.error e0 → fn 1 = Except.error e1 → fn 2 = Except.ok a →
      with_retry fn 3 base_sleep = (Except.ok a, [base_sleep * 1, base_sleep * 2])) ∧
    (∀ e0 e1 e2, fn 0 = Except.error e0 → fn 1 = Except.error e1 → fn 2 = Except.error e2 →
      with_retry fn 3 base_sleep =
        (Except.error (some e2), [base_sleep * 1, base_sleep * 2, base_sleep * 3])) ∧
    ((∃ err, (with_retry fn 3 base_sleep).1 = Except.error err) ↔
      ∀ i, i < 3 → ∃ e, fn i = Except.error e) := by
  refine ⟨?_, ?_, ?_, ?_, ?_⟩
  · intro a h0
    simp [with_retry, withRetryAux, h0]
  · intro e0 a h0 h1
    simp [with_retry, withRetryAux, h0, h1]
  · intro e0 e1 a h0 h1 h2
    simp [with_retry, withRetryAux, h0, h1, h2]
    norm_num
  · intro e0 e1 e2 h0 h1 h2
    simp [with_retry, withRetryAux, h0, h1, h2]
    norm_num
  · rcases h0 : fn 0 with e0 | a0
    · rcases h1 : fn 1 with e1 | a1
      · rcases h2 : fn 2 with e2 | a2
        · simp only [with_retry, withRetryAux, h0, h1, h2]
          constructor
          · intro _ i hi
            interval_cases i
            · exact ⟨e0, h0⟩
            · exact ⟨e1, h1⟩
            · exact ⟨e2, h2⟩
          · intro _
            exact ⟨some e2, rfl⟩
        · simp only [with_retry, withRetryAux, h0, h1, h2]
          constructor
          · rintro ⟨err, herr⟩
            exact absurd herr (by simp)
          · intro hall
            rcases hall 2 (by norm_num) with ⟨e, he⟩
            rw [h2] at he
            exact absurd he (by simp)
      · simp only [with_retry, withRetryAux, h0, h1]
        constructor
        · rintro ⟨err, herr⟩
          exact absurd herr (by simp)
        · intro hall
          rcases hall 1 (by norm_num) with ⟨e, he⟩
          rw [h1] at he
          exact absurd he (by simp)
    · simp only [with_retry, withRetryAux, h0]
      constructor
      · rintro ⟨err, herr⟩
        exact absurd herr (by simp)
      · intro hall
        rcases hall 0 (by norm_num) with ⟨e, he⟩
        rw [h0] at he
        exact absurd he (by simp)

/-- Witness: the operation failing on attempts 1 and 2 and returning 7 on
attempt 3 yields 7 after exactly the two delays 2 and 4 (base_sleep 2). -/
theorem with_retry_spec_witness :
    with_retry fnW 3 2 = (Except.ok 7, [2, 4]) := by
  have h := (with_retry_spec fnW 2).2.2.1 () () 7 rfl rfl rfl
  rw [h]
  norm_num

/-- C1: every record produced by load_main_stats carries the shooting
percentages makes over attempts whenever the attempt count is positive and
undefined (none, never zero) whenever the attempt count is zero, and carries
per-game points and minutes equal to the season totals divided by games
played whenever games played is positive and undefined when games played is
zero. -/
theorem load_main_stats_spec (rows : List RawPlayerRow) (r : RawPlayerRow) (hr : r ∈ rows) :
    load_main_stats_row r ∈ load_main_stats rows ∧
    (∀ a m, r.FGA = some a → 0 < a → r.FGM = some m →
      (load_main_stats_row r).FG_PCT = some (m / a)) ∧
    (r.FGA = some 0 → (load_main_stats_row r).FG_PCT = none) ∧
    (∀ a m, r.FG3A = some a → 0 < a → r.FG3M = some m →
      (load_main_stats_row r).FG3_PCT = some (m / a)) ∧
    (r.FG3A = some 0 → (load_main_stats_row r).FG3_PCT = none) ∧
    (∀ a m, r.FTA = some a → 0 < a → r.FTM = some m →
      (load_main_stats_row r).FT_PCT = some (m / a)) ∧
    (r.FTA = some 0 → (load_main_stats_row r).FT_PCT = none) ∧
    (∀ g p, r.GP = some g → 0 < g → r.PTS = some p →
      (load_main_stats_row r).PTS = some (p / g)) ∧
    (∀ g mn, r.GP = some g → 0 < g → r.MIN = some mn →
      (load_main_stats_row r).MIN = some (mn / g)) ∧
    (r.GP = some 0 →
      (load_main_stats_row r).PTS = none ∧ (load_main_stats_row r).MIN = none) := by
  refine ⟨List.mem_map_of_mem _ hr, ?_, ?_, ?_, ?_, ?_, ?_, ?_, ?_, ?_⟩
  · intro a m ha hpos hm
    simp [load_main_stats_row, guardedDiv, ha, hm, hpos]
  · intro h
    simp [load_main_stats_row, guardedDiv, h]
  · intro a m ha hpos hm
    simp [load_main_stats_row, guardedDiv, ha, hm, hpos]
  · intro h
    simp [load_main_stats_row, guardedDiv, h]
  · intro a m ha hpos hm
    simp [load_main_stats_row, guardedDiv, ha, hm, hpos]
  · intro h
    simp [load_main_stats_row, guardedDiv, h]
  · intro g p hg hpos hp
    simp [load_main_stats_row, guardedDiv, hg, hp, hpos]
  · intro g mn hg hpos hmn
    simp [load_main_stats_row, guardedDiv, hg, hmn, hpos]
  · intro h
    constructor <;> simp [load_main_stats_row, guardedDiv, h]

/-- Witness: on the concrete totals row, FG% is 1/2, FT% is 3/4, and points
per game is 20. -/
theorem load_main_stats_spec_witness :
    (load_main_stats_row rawW).FG_PCT = some (1 / 2) ∧
    (load_main_stats_row rawW).FT_PCT = some (3 / 4) ∧
    (load_main_stats_row rawW).PTS = some 20 := by
  have h := load_main_stats_spec [rawW] rawW (by simp)
  refine ⟨?_, ?_, ?_⟩
  · rw [h.2.1 800 400 rfl (by norm_num) rfl]
    norm_num
  · rw [h.2.2.2.2.2.1 200 150 rfl (by norm_num) rfl]
    norm_num
  · rw [h.2.2.2.2.2.2.2.1 50 1000 rfl (by norm_num) rfl]
    norm_num

/-- Evaluation of get_zones_for_player when the name column is missing. -/
theorem get_zones_no_name_col (player_name : String) (t : WideZoneTable)
    (hc : t.cols.contains "PLAYER_NAME" = false) :
    get_zones_for_player player_name t = some [] := by
  unfold get_zones_for_player
  rw [hc]
  rfl

/-- Evaluation of get_zones_for_player when no row matches the player. -/
theorem get_zones_no_match (player_name : String) (t : WideZoneTable)
    (hc : t.cols.contains "PLAYER_NAME" = true)
    (hrow : t.rows.find? (fun r => r.name == player_name) = none) :
    get_zones_for_player player_name t = some [] := by
  unfold get_zones_for_player
  rw [hc, hrow]
  rfl

/-- Evaluation of get_zones_for_player on the normal path: name column
present, a row matched, at least one shot column. -/
theorem get_zones_eval (player_name : String) (t : WideZoneTable) (row : ZoneRow)
    (hc : t.cols.contains "PLAYER_NAME" = true)
    (hrow : t.rows.find? (fun r => r.name == player_name) = some row)
    (he : (t.cols.filter isShotCol).isEmpty = false) :
    get_zones_for_player player_name t =
      some ((((t.cols.filter isShotCol).foldl (stepZone row) []).filter
          (fun z => !(z.1 == "Backcourt"))).map
        (mkZoneRec (((((t.cols.filter isShotCol).foldl (stepZone row) []).filter
          (fun z => !(z.1 == "Backcourt"))).map (fun z => z.2.2)).sum))) := by
  unfold get_zones_for_player
  rw [hc, hrow]
  show get_zones_core row t.cols = _
  unfold get_zones_core
  rw [he]
  rfl

/-- Evaluation of get_zones_for_player on the raising path: name column
present, a row matched, no shot column at all. -/
theorem get_zones_eval_none (player_name : String) (t : WideZoneTable) (row : ZoneRow)
    (hc : t.cols.contains "PLAYER_NAME" = true)
    (hrow : t.rows.find? (fun r => r.name == player_name) = some row)
    (he : (t.cols.filter isShotCol).isEmpty = true) :
    get_zones_for_player player_name t = none := by
  unfold get_zones_for_player
  rw [hc, hrow]
  show get_zones_core row t.cols = _
  unfold get_zones_core
  rw [he]
  rfl

/-- Every normal result of get_zones_for_player is empty or the image under
mkZoneRec of a list of accumulated zone triples avoiding the Backcourt
label, with the total taken over exactly those triples. -/
theorem get_zones_some_shape (player_name : String) (t : WideZoneTable)
    (l : List ZoneRec) (h : get_zones_for_player player_name t = some l) :
    l = [] ∨ ∃ zs : List (String × ℚ × ℚ),
      (∀ z ∈ zs, z.1 ≠ "Backcourt") ∧
      l = zs.map (mkZoneRec ((zs.map (fun z => z.2.2)).sum)) := by
  by_cases hc : t.cols.contains "PLAYER_NAME" = true
  · rcases hrow : t.rows.find? (fun r => r.name == player_name) with _ | row
    · left
      rw [get_zones_no_match player_name t hc hrow] at h
      exact (Option.some.injEq _ _).mp h.symm
    · by_cases he : (t.cols.filter isShotCol).isEmpty
      · rw [get_zones_eval_none player_name t row hc hrow he] at h
        cases h
      · right
        have he2 : (t.cols.filter isShotCol).isEmpty = false := by
          revert he
          cases (t.cols.filter isShotCol).isEmpty <;> simp
        rw [get_zones_eval player_name t row hc hrow he2] at h
        refine ⟨((t.cols.filter isShotCol).foldl (stepZone row) []).filter
            (fun z => !(z.1 == "Backcourt")), ?_, ?_⟩
        · intro z hz
          have hmem := List.of_mem_filter hz
          simpa using hmem
        · exact (Option.some.injEq _ _).mp h.symm
  · left
    have hc2 : t.cols.contains "PLAYER_NAME" = false := by
      revert hc
      cases t.cols.contains "PLAYER_NAME" <;> simp
    rw [get_zones_no_name_col player_name t hc2] at h
    exact (Option.some.injEq _ _).mp h.symm

/-- C3 (amended): get_zones_for_player returns an empty sequence when the
table lacks the PLAYER_NAME column or no row matches the player name, and
returns normally whenever the matched row has at least one zone metric
column; but when a row matches and the table has no zone metric column at
all, it raises a KeyError (modelled as none) instead of returning. -/
theorem get_zones_for_player_total_behavior (player_name : String) (t : WideZoneTable) :
    (t.cols.contains "PLAYER_NAME" = false →
      get_zones_for_player player_name t = some []) ∧
    (t.rows.find? (fun r => r.name == player_name) = none →
      get_zones_for_player player_name t = some []) ∧
    (∀ row, t.rows.find? (fun r => r.name == player_name) = some row →
      t.cols.contains "PLAYER_NAME" = true →
      ((t.cols.filter isShotCol ≠ [] →
          ∃ l, get_zones_for_player player_name t = some l) ∧
       (t.cols.filter isShotCol = [] →
          get_zones_for_player player_name t = none))) := by
  refine ⟨?_, ?_, ?_⟩
  · intro hc
    exact get_zones_no_name_col player_name t hc
  · intro hrow
    by_cases hc : t.cols.contains "PLAYER_NAME" = true
    · exact get_zones_no_match player_name t hc hrow
    · refine get_zones_no_name_col player_name t ?_
      revert hc
      cases t.cols.contains "PLAYER_NAME" <;> simp
  · intro row hrow hc
    constructor
    · intro hne
      have he : (t.cols.filter isShotCol).isEmpty = false := by
        revert hne
        cases (t.cols.filter isShotCol) <;> simp
      exact ⟨_, get_zones_eval player_name t row hc hrow he⟩
    · intro heq
      refine get_zones_eval_none player_name t row hc hrow ?_
      rw [heq]
      rfl

/-- Witness: on a table without the PLAYER_NAME column the aggregation
returns the empty sequence. -/
theorem get_zones_for_player_total_behavior_witness :
    get_zones_for_player "Bob" noNameColTable = some [] :=
  (get_zones_for_player_total_behavior "Bob" noNameColTable).1 (by decide)

/-- C3 counterexample: on a table whose matched row has no zone metric
column, get_zones_for_player raises (none) although the claim requires a
normal return. -/
theorem get_zones_for_player_raises_cex :
    get_zones_for_player "Alice Auger" noZoneColsTable = none ∧
    noZoneColsTable.cols.contains "PLAYER_NAME" = true ∧
    (noZoneColsTable.rows.find? (fun r => r.name == "Alice Auger")).isSome = true := by
  refine ⟨?_, by decide, by decide⟩
  decide

/-- C9: no record of a normal get_zones_for_player result carries the
reserved Backcourt zone label, regardless of the input table. -/
theorem get_zones_for_player_no_backcourt (player_name : String) (t : WideZoneTable)
    (l : List ZoneRec) (h : get_zones_for_player player_name t = some l) :
    ∀ zr ∈ l, zr.zone ≠ "Backcourt" := by
  rcases get_zones_some_shape player_name t l h with rfl | ⟨zs, hz, rfl⟩
  · intro zr hzr
    cases hzr
  · intro zr hzr
    rcases List.mem_map.mp hzr with ⟨z, hzm, rfl⟩
    exact hz z hzm

/-- Witness: on a table holding a Backcourt zone, the single surviving output
record is the Mid zone. -/
theorem get_zones_for_player_no_backcourt_witness :
    (mkZoneRec 6 ("Mid", 3, 6)).zone ≠ "Backcourt" := by
  have hsome : get_zones_for_player "Cara Doe" backcourtTable =
      some [mkZoneRec 6 ("Mid", 3, 6)] := by
    with_unfolding_all decide
  exact get_zones_for_player_no_backcourt "Cara Doe" backcourtTable
    [mkZoneRec 6 ("Mid", 3, 6)] hsome (mkZoneRec 6 ("Mid", 3, 6)) (by simp)

/-- C8: every retained zone record of get_zones_for_player has points equal
to makes times three exactly when the zone label contains the digit 3 and
makes times two otherwise, points per shot equal to points over attempts when
attempts are positive, and undefined points per shot when attempts are
zero. -/
theorem get_zones_for_player_points_spec (player_name : String) (t : WideZoneTable)
    (l : List ZoneRec) (h : get_zones_for_player player_name t = some l)
    (zr : ZoneRec) (hzr : zr ∈ l) :
    zr.PTS = zr.FGM * (if zr.zone.data.any (fun ch => ch == '3') then 3 else 2) ∧
    (0 < zr.FGA → zr.PTS_per_shot = some (zr.PTS / zr.FGA)) ∧
    (zr.FGA = 0 → zr.PTS_per_shot = none) := by
  rcases get_zones_some_shape player_name t l h with rfl | ⟨zs, hz, rfl⟩
  · cases hzr
  · rcases List.mem_map.mp hzr with ⟨z, hzm, rfl⟩
    simp only [mkZoneRec]
    refine ⟨trivial, ?_, ?_⟩
    · intro hpos
      rw [if_pos hpos]
    · intro h0
      rw [if_neg (by rw [h0]; exact lt_irrefl 0)]

/-- Witness: the Corner_3 zone with makes 4 and attempts 9 yields 12 points
and 4/3 points per shot. -/
theorem get_zones_for_player_points_spec_witness :
    (mkZoneRec 9 ("Corner_3", 4, 9)).PTS = 12 ∧
    (mkZoneRec 9 ("Corner_3", 4, 9)).PTS_per_shot = some (4 / 3) := by
  have hsome : get_zones_for_player "Dee Em" threeZoneTable =
      some [mkZoneRec 9 ("Corner_3", 4, 9)] := by
    with_unfolding_all decide
  have h := get_zones_for_player_points_spec "Dee Em" threeZoneTable
    [mkZoneRec 9 ("Corner_3", 4, 9)] hsome (mkZoneRec 9 ("Corner_3", 4, 9)) (by simp)
  constructor
  · rw [h.1]
    with_unfolding_all decide
  · rw [h.2.1 (by with_unfolding_all decide)]
    rw [h.1]
    with_unfolding_all decide

/-- Mapping a pointwise division over a list commutes with the sum. -/
theorem sum_map_div_list {α : Type} (xs : List α) (f : α → ℚ) (T : ℚ) :
    (xs.map (fun x => f x / T)).sum = (xs.map f).sum / T := by
  induction xs with
  | nil => simp
  | cons x xs ih => simp [ih, add_div]

/-- C4: over a normal get_zones_for_player result, when the sum of attempts
across the retained zones is positive every record's shot share is its
attempts divided by that sum and the shares sum to exactly 1, and when the
sum of attempts is zero every record's shot share is undefined. -/
theorem get_zones_for_player_shot_share_spec (player_name : String) (t : WideZoneTable)
    (l : List ZoneRec) (h : get_zones_for_player player_name t = some l) :
    (0 < (l.map (fun zr => zr.FGA)).sum →
      (∀ zr ∈ l, zr.shotShare = some (zr.FGA / (l.map (fun zr => zr.FGA)).sum)) ∧
      (l.map (fun zr => zr.shotShare.getD 0)).sum = 1) ∧
    ((l.map (fun zr => zr.FGA)).sum = 0 → ∀ zr ∈ l, zr.shotShare = none) := by
  rcases get_zones_some_shape player_name t l h with rfl | ⟨zs, hz, rfl⟩
  · constructor
    · intro hpos
      exact absurd hpos (by simp)
    · intro _ zr hzr
      cases hzr
  · have hFGA : ((zs.map (mkZoneRec ((zs.map (fun z => z.2.2)).sum))).map (fun zr => zr.FGA))
        = zs.map (fun z => z.2.2) := by
      rw [List.map_map]
      rfl
    rw [hFGA]
    constructor
    · intro hpos
      constructor
      · intro zr hzr
        rcases List.mem_map.mp hzr with ⟨z, hzm, rfl⟩
        simp only [mkZoneRec]
        rw [if_pos hpos]
      · rw [List.map_map]
        have hcomp : ((fun zr : ZoneRec => zr.shotShare.getD 0) ∘
            mkZoneRec ((zs.map (fun z => z.2.2)).sum)) =
            fun z : String × ℚ × ℚ => z.2.2 / (zs.map (fun z => z.2.2)).sum := by
          funext z
          show (mkZoneRec ((zs.map (fun z => z.2.2)).sum) z).shotShare.getD 0 = _
          simp only [mkZoneRec]
          rw [if_pos hpos]
          rfl
        rw [hcomp, sum_map_div_list zs (fun z => z.2.2) ((zs.map (fun z => z.2.2)).sum),
            div_self (ne_of_gt hpos)]
    · intro h0 zr hzr
      rcases List.mem_map.mp hzr with ⟨z, hzm, rfl⟩
      simp only [mkZoneRec]
      rw [if_neg (by rw [h0]; exact lt_irrefl 0)]

/-- Witness: on the two-zone table with 5 and 9 attempts the shares sum to
1. -/
theorem get_zones_for_player_shot_share_spec_witness :
    (shareOut.map (fun zr => zr.shotShare.getD 0)).sum = 1 := by
  have hsome : get_zones_for_player "Ed Fox" shareTable = some shareOut := by
    with_unfolding_all decide
  have h := (get_zones_for_player_shot_share_spec "Ed Fox" shareTable shareOut hsome).1
    (by with_unfolding_all decide)
  exact h.2

/-- A raw percentage value contributes nothing to the zone accumulator. -/
theorem metricDelta_pct (v : Option ℚ) : metricDelta "FG_PCT" v = (0, 0) := by
  cases v with
  | none => rfl
  | some x =>
      show (if ("FG_PCT" : String) = "FGM" then (x, (0 : ℚ))
        else if ("FG_PCT" : String) = "FGA" then ((0 : ℚ), x) else (0, 0)) = (0, 0)
      rw [if_neg (by decide), if_neg (by decide)]

/-- One accumulation step is unchanged between two rows agreeing outside the
raw percentage columns. -/
theorem stepZone_agree {r1 r2 : ZoneRow} (h : RowsAgreeOffPct r1 r2)
    (acc : List (String × ℚ × ℚ)) (c : String) :
    stepZone r1 acc c = stepZone r2 acc c := by
  by_cases hp : strEndsWith c "_FG_PCT"
  · unfold stepZone zoneMetricOf
    rw [if_pos hp]
    rw [metricDelta_pct, metricDelta_pct]
  · have hpc : pctColName c = false := by
      revert hp
      unfold pctColName
      cases strEndsWith c "_FG_PCT" <;> simp
    have hcell := h.2 c hpc
    unfold stepZone
    rw [hcell]

/-- The whole accumulation is unchanged between two rows agreeing outside the
raw percentage columns. -/
theorem foldl_stepZone_agree {r1 r2 : ZoneRow} (h : RowsAgreeOffPct r1 r2) :
    ∀ (cols : List String) (acc : List (String × ℚ × ℚ)),
      cols.foldl (stepZone r1) acc = cols.foldl (stepZone r2) acc := by
  intro cols
  induction cols with
  | nil => intro acc; rfl
  | cons c cols ih =>
      intro acc
      simp only [List.foldl_cons]
      rw [stepZone_agree h acc c]
      exact ih _

/-- Row lookup is congruent over two row lists related pointwise by agreement
outside the raw percentage columns. -/
theorem find?_rows_agree (player_name : String) :
    ∀ {l1 l2 : List ZoneRow}, List.Forall₂ RowsAgreeOffPct l1 l2 →
      (l1.find? (fun r => r.name == player_name) = none ∧
       l2.find? (fun r => r.name == player_name) = none) ∨
      (∃ r1 r2, l1.find? (fun r => r.name == player_name) = some r1 ∧
        l2.find? (fun r => r.name == player_name) = some r2 ∧ RowsAgreeOffPct r1 r2) := by
  intro l1 l2 h
  induction h with
  | nil => left; exact ⟨rfl, rfl⟩
  | @cons a b l1x l2x hab hrest ih =>
      by_cases hname : (a.name == player_name) = true
      · right
        refine ⟨a, b, List.find?_cons_of_pos _ hname, ?_, hab⟩
        have hb : (b.name == player_name) = true := by
          rw [← hab.1]
          exact hname
        exact List.find?_cons_of_pos _ hb
      · have hb : ¬ (b.name == player_name) = true := by
          rw [← hab.1]
          exact hname
        rw [@List.find?_cons_of_neg _ (fun r => r.name == player_name) a l1x hname,
            @List.find?_cons_of_neg _ (fun r => r.name == player_name) b l2x hb]
        exact ih

/-- C5: get_zones_for_player is insensitive to the values stored in the raw
per-zone percentage columns — two tables agreeing everywhere else produce
identical output for every player — and every output record's percentage is
recomputed strictly as accumulated makes over accumulated attempts, undefined
when the attempts are not positive. -/
theorem get_zones_for_player_pct_independent (player_name : String) :
    (∀ t1 t2, TablesAgreeOffPct t1 t2 →
      get_zones_for_player player_name t1 = get_zones_for_player player_name t2) ∧
    (∀ t l zr, get_zones_for_player player_name t = some l → zr ∈ l →
      (0 < zr.FGA → zr.FG_PCT = some (zr.FGM / zr.FGA)) ∧
      (¬ 0 < zr.FGA → zr.FG_PCT = none)) := by
  constructor
  · rintro t1 t2 ⟨hcols, hrows⟩
    by_cases hc : t2.cols.contains "PLAYER_NAME" = true
    · have hc1 : t1.cols.contains "PLAYER_NAME" = true := by rw [hcols]; exact hc
      rcases find?_rows_agree player_name hrows with ⟨h1, h2⟩ | ⟨r1, r2, h1, h2, hagree⟩
      · rw [get_zones_no_match player_name t1 hc1 h1,
            get_zones_no_match player_name t2 hc h2]
      · by_cases he : (t2.cols.filter isShotCol).isEmpty
        · have he1 : (t1.cols.filter isShotCol).isEmpty = true := by rw [hcols]; exact he
          rw [get_zones_eval_none player_name t1 r1 hc1 h1 he1,
              get_zones_eval_none player_name t2 r2 hc h2 he]
        · have he2 : (t2.cols.filter isShotCol).isEmpty = false := by
            revert he
            cases (t2.cols.filter isShotCol).isEmpty <;> simp
          have he1 : (t1.cols.filter isShotCol).isEmpty = false := by
            rw [hcols]; exact he2
          rw [get_zones_eval player_name t1 r1 hc1 h1 he1,
              get_zones_eval player_name t2 r2 hc h2 he2, hcols,
              foldl_stepZone_agree hagree]
    · have hc2 : t2.cols.contains "PLAYER_NAME" = false := by
        revert hc
        cases t2.cols.contains "PLAYER_NAME" <;> simp
      have hc1 : t1.cols.contains "PLAYER_NAME" = false := by rw [hcols]; exact hc2
      rw [get_zones_no_name_col player_name t1 hc1,
          get_zones_no_name_col player_name t2 hc2]
  · intro t l zr h hzr
    rcases get_zones_some_shape player_name t l h with rfl | ⟨zs, hz, rfl⟩
    · cases hzr
    · rcases List.mem_map.mp hzr with ⟨z, hzm, rfl⟩
      simp only [mkZoneRec]
      constructor
      · intro hpos
        rw [if_pos hpos]
      · intro hneg
        rw [if_neg hneg]

/-- Witness: two concrete tables differing only in the Mid_FG_PCT value give
identical aggregation output. -/
theorem get_zones_for_player_pct_independent_witness :
    get_zones_for_player "Ida Jo" pctTableA = get_zones_for_player "Ida Jo" pctTableB := by
  apply (get_zones_for_player_pct_independent "Ida Jo").1
  refine ⟨rfl, List.Forall₂.cons ⟨rfl, ?_⟩ List.Forall₂.nil⟩
  intro c hc
  by_cases h1 : c = "Mid_FGM"
  · subst h1; decide
  by_cases h2 : c = "Mid_FGA"
  · subst h2; decide
  by_cases h3 : c = "Mid_FG_PCT"
  · exact absurd hc (by subst h3; decide)
  · have b1 : (c == "Mid_FGM") = false := beq_eq_false_iff_ne.mpr h1
    have b2 : (c == "Mid_FGA") = false := beq_eq_false_iff_ne.mpr h2
    have b3 : (c == "Mid_FG_PCT") = false := beq_eq_false_iff_ne.mpr h3
    simp [getCell, List.lookup, b1, b2, b3]

/-- C2: whenever the zone-breakdown table is produced from the
load_main_stats row of a raw totals row, its final record is the synthetic
Free Throw row, whose per-game free-throw makes and attempts are the season
totals divided by games played (undefined when games played is zero), whose
free-throw percentage is the player's free-throw percentage, and whose
points, points-per-shot and shot-share cells are all undefined. -/
theorem zone_breakdown_ft_row_spec (player_name : String) (t : WideZoneTable)
    (raw : RawPlayerRow) (rows : List DisplayRow)
    (h : zone_breakdown_table player_name t (load_main_stats_row raw) = some rows) :
    rows.getLast? = some (ft_row (load_main_stats_row raw)) ∧
    (ft_row (load_main_stats_row raw)).zone = "Free Throw" ∧
    (∀ g f, raw.GP = some g → 0 < g → raw.FTM = some f →
      (ft_row (load_main_stats_row raw)).FTM = some (f / g)) ∧
    (∀ g f, raw.GP = some g → 0 < g → raw.FTA = some f →
      (ft_row (load_main_stats_row raw)).FTA = some (f / g)) ∧
    (raw.GP = some 0 →
      (ft_row (load_main_stats_row raw)).FTM = none ∧
      (ft_row (load_main_stats_row raw)).FTA = none) ∧
    (ft_row (load_main_stats_row raw)).FT_PCT = (load_main_stats_row raw).FT_PCT ∧
    (ft_row (load_main_stats_row raw)).PTS = none ∧
    (ft_row (load_main_stats_row raw)).PTS_per_shot = none ∧
    (ft_row (load_main_stats_row raw)).shotShare = none := by
  refine ⟨?_, rfl, ?_, ?_, ?_, rfl, rfl, rfl, rfl⟩
  · unfold zone_breakdown_table at h
    rcases hz : get_zones_for_player player_name t with _ | zs
    · rw [hz] at h
      exact Option.noConfusion h
    · rw [hz] at h
      have h2 : (if zs.isEmpty = true then none
          else some (List.map displayOfZone zs ++ [ft_row (load_main_stats_row raw)])) =
          some rows := h
      by_cases he : zs.isEmpty
      · rw [if_pos he] at h2
        exact Option.noConfusion h2
      · rw [if_neg he] at h2
        have hrows := (Option.some.injEq _ _).mp h2
        rw [← hrows]
        exact List.getLast?_concat _
  · intro g f hg hpos hf
    show guardedDiv raw.FTM raw.GP = some (f / g)
    rw [hg, hf]
    show (if 0 < g then Option.map (fun n => n / g) (some f) else none) = some (f / g)
    rw [if_pos hpos]
    rfl
  · intro g f hg hpos hf
    show guardedDiv raw.FTA raw.GP = some (f / g)
    rw [hg, hf]
    show (if 0 < g then Option.map (fun n => n / g) (some f) else none) = some (f / g)
    rw [if_pos hpos]
    rfl
  · intro h0
    constructor
    · show guardedDiv raw.FTM raw.GP = none
      rw [h0]
      show (if (0 : ℚ) < 0 then Option.map (fun n => n / (0 : ℚ)) raw.FTM else none) = none
      rw [if_neg (lt_irrefl 0)]
    · show guardedDiv raw.FTA raw.GP = none
      rw [h0]
      show (if (0 : ℚ) < 0 then Option.map (fun n => n / (0 : ℚ)) raw.FTA else none) = none
      rw [if_neg (lt_irrefl 0)]

/-- Witness: on the FTM 150, FTA 200, GP 50 example row the Free Throw record
carries per-game makes 3, per-game attempts 4 and percentage 3/4, and it is
the last record of the produced table. -/
theorem zone_breakdown_ft_row_spec_witness :
    (ft_row (load_main_stats_row rawFT)).FTM = some 3 ∧
    (ft_row (load_main_stats_row rawFT)).FTA = some 4 ∧
    (ft_row (load_main_stats_row rawFT)).FT_PCT = some (3 / 4) ∧
    (zone_breakdown_table "Gil Han" ftTable (load_main_stats_row rawFT)).getD [] ≠ [] := by
  have hsome : zone_breakdown_table "Gil Han" ftTable (load_main_stats_row rawFT) =
      some [displayOfZone (mkZoneRec 10 ("Paint", 5, 10)), ft_row (load_main_stats_row rawFT)] := by
    with_unfolding_all decide
  have h := zone_breakdown_ft_row_spec "Gil Han" ftTable rawFT
    [displayOfZone (mkZoneRec 10 ("Paint", 5, 10)), ft_row (load_main_stats_row rawFT)] hsome
  refine ⟨?_, ?_, ?_, ?_⟩
  · rw [h.2.2.1 50 150 rfl (by norm_num) rfl]
    norm_num
  · rw [h.2.2.2.1 50 200 rfl (by norm_num) rfl]
    norm_num
  · rw [h.2.2.2.2.2.1]
    with_unfolding_all decide
  · rw [hsome]
    with_unfolding_all decide

end NBAApp
